import Mathlib

/-!
Shallow embedding of `src/jwst/pipeline/calwebb_ami3.py` (`Ami3Pipeline.process`),
the AMI level-3 pipeline controller, together with theorems about its
orchestration behaviour: role partitioning, stage-invocation counts and order,
conditional normalization, provenance stamping and metadata blending.

The embedding models the controller's control flow over symbolic stage results:
`ami_analyze`, `ami_average`, `ami_normalize`, `blendmeta.blendmodels` and
`save_model` are external collaborators whose invocations are recorded in an
event trace, and whose outputs are represented symbolically by `Payload`.
-/

namespace Ami3

/-- One member of an association product: `{'expname': ..., 'exptype': ...}`.
The `exptype` field is the role tag, compared case-insensitively against
`'PSF'` (the reference role) and `'SCIENCE'` in the source. -/
structure Member where
  expname : String
  exptype : String
deriving DecidableEq, Repr

/-- One association product: an optional `name` (output-name override, read by
`prod.get('name', self.output_file)`) and an ordered member list. -/
structure Product where
  name : Option String
  members : List Member
deriving DecidableEq, Repr

/-- The loaded association table: `asn_id`, `asn_pool`, the table's file name
(`asn.filename`) and the ordered product list. -/
structure Association where
  asn_id : String
  asn_pool : String
  filename : String
  products : List Product
deriving DecidableEq, Repr

/-- Symbolic stage outputs: an `ami_analyze` result for one exposure, an
`ami_average` result over an ordered artifact-file list, or an
`ami_normalize` result over a science and a reference average. -/
inductive Payload where
  | analysis (expname : String)
  | average (files : List String)
  | normalized (sci ref : Payload)
deriving DecidableEq, Repr

/-- One input handed to `blendmeta.blendmodels`: either a persisted artifact
file name or an in-memory model (identified by its payload). -/
inductive BlendItem where
  | file (name : String)
  | model (p : Payload)
deriving DecidableEq, Repr

/-- A stage result as the controller sees it: the symbolic payload plus the
metadata the controller itself writes — `meta.asn.pool_name`,
`meta.asn.table_name`, and the ordered input list it was blended against
(`none` when `blendmodels` was never applied to it). -/
structure Result where
  payload : Payload
  pool_name : Option String
  table_name : Option String
  blendedWith : Option (List BlendItem)
deriving DecidableEq, Repr

/-- One external-collaborator invocation made by `process`, in program order. -/
inductive Event where
  | analyze (expname : String)
  | average (files : List String)
  | normalize (sci ref : Payload)
  | blend (target : Payload) (inputs : List BlendItem)
  | save (r : Result) (filename : String)
deriving DecidableEq, Repr

/-- Run-level failures of `process` itself. `noProducts` models the
`IndexError` raised by `asn['products'][0]` on an empty product list;
`nameErrorTargAvg` models the `NameError` Python would raise if the
normalization branch read `targ_avg` without the science-average branch
having assigned it. -/
inductive RunError where
  | noProducts
  | nameErrorTargAvg
deriving DecidableEq, Repr

/-- Terminal status of a run: a propagated error, the soft abort taken when no
science members exist, or normal completion carrying the reference average,
the science average and the normalized result (each `none` when that branch
did not produce one). -/
inductive Outcome where
  | error (e : RunError)
  | aborted
  | completed (psf_avg targ_avg normalized : Option Result)
deriving DecidableEq, Repr

/-- The full observable behaviour of one run: the ordered trace of external
stage invocations and the terminal outcome. -/
structure RunOutput where
  trace : List Event
  outcome : Outcome
deriving DecidableEq, Repr

/-- Python `str.upper()`, character by character (role tags are ASCII, where
this agrees with Python's Unicode case mapping). -/
def upper (s : String) : String := ⟨s.data.map Char.toUpper⟩

/-- `m['exptype'].upper() == 'PSF'` — the reference-role test. -/
def isPSF (m : Member) : Bool := upper m.exptype == "PSF"

/-- `m['exptype'].upper() == 'SCIENCE'` — the science-role test. -/
def isScience (m : Member) : Bool := upper m.exptype == "SCIENCE"

/-- Modelled from the spec: `ProductPersister.save` (`Step.save_model`, not
under `src/`) uses the deterministic naming scheme
`<baseName>_<suffix>.<ext>`.  The source also threads the association id
`acid` into per-member saves; its effect on the name lives in the external
persister and does not alter determinism, so it is omitted here. -/
def saveName (base suffix : String) : String := base ++ "_" ++ suffix ++ ".fits"

/-- Output file name of the per-member `ami_analyze` artifact:
`save_model(result, output_file=input_file, suffix='ami', ...)`. -/
def memberOutName (m : Member) : String := saveName m.expname "ami"

/-- The controller state read inside `process` once the association is loaded:
provenance strings, the persist-averages flag and the run's output-file base. -/
structure Ctx where
  asn_pool : String
  asn_filename : String
  save_averages : Bool
  output_file : String
deriving DecidableEq, Repr

/-- `[m['expname'] for m in prod['members'] if m['exptype'].upper() == 'SCIENCE']`
— the pre-loop science member list used by the abort check. -/
def sciExpnames (prod : Product) : List String :=
  (prod.members.filter isScience).map (·.expname)

/-- `[m['expname'] for m in prod['members'] if m['exptype'].upper() == 'PSF']`
— the pre-loop PSF member list used only for the skip-notice log. -/
def psfExpnames (prod : Product) : List String :=
  (prod.members.filter isPSF).map (·.expname)

/-- The per-member analysis loop: for each member in order, invoke
`ami_analyze`, stamp pool/table provenance, save with suffix `'ami'`, and
append the saved file name to the PSF accumulator if the role is PSF and to
the science accumulator if the role is SCIENCE.  Returns
`(trace, psf_files, targ_files)`. -/
def runLoop (ctx : Ctx) : List Member → List Event × List String × List String
  | [] => ([], [], [])
  | m :: rest =>
    let r : Result :=
      { payload := .analysis m.expname
        pool_name := some ctx.asn_pool
        table_name := some ctx.asn_filename
        blendedWith := none }
    let ofile := memberOutName m
    let (tr, ps, ts) := runLoop ctx rest
    (Event.analyze m.expname :: Event.save r ofile :: tr,
     (if isPSF m then [ofile] else []) ++ ps,
     (if isScience m then [ofile] else []) ++ ts)

/-- One role-average block (the PSF and science blocks of the source are this
code with suffixes `'psf-amiavg'`/`'amiavg'`): if the accumulator is
non-empty, invoke `ami_average`; if additionally `save_averages` is set,
stamp provenance, blend metadata against the accumulator and save. -/
def avgPhase (ctx : Ctx) (suffix : String) (files : List String) :
    List Event × Option Result :=
  if files.length > 0 then
    let p := Payload.average files
    if ctx.save_averages then
      let avg : Result :=
        { payload := p
          pool_name := some ctx.asn_pool
          table_name := some ctx.asn_filename
          blendedWith := some (files.map BlendItem.file) }
      ([Event.average files,
        Event.blend p (files.map BlendItem.file),
        Event.save avg (saveName ctx.output_file suffix)],
       some avg)
    else
      ([Event.average files],
       some { payload := p, pool_name := none, table_name := none,
              blendedWith := none })
  else ([], none)

/-- The normalization block: invoke `ami_normalize(targ_avg, psf_avg)`, stamp
provenance, blend metadata against `[targ_avg, psf_avg]`, save with suffix
`'aminorm'` and close the result. -/
def normPhase (ctx : Ctx) (tavg pavg : Result) : List Event × Result :=
  let p := Payload.normalized tavg.payload pavg.payload
  let inputs := [BlendItem.model tavg.payload, BlendItem.model pavg.payload]
  let res : Result :=
    { payload := p
      pool_name := some ctx.asn_pool
      table_name := some ctx.asn_filename
      blendedWith := some inputs }
  ([Event.normalize tavg.payload pavg.payload,
    Event.blend p inputs,
    Event.save res (saveName ctx.output_file "aminorm")],
   res)

/-- The controller state assembled at the top of `process` from the loaded
association and its first product. -/
def mkCtx (save_averages : Bool) (dflt : String) (asn : Association)
    (prod : Product) : Ctx :=
  { asn_pool := asn.asn_pool
    asn_filename := asn.filename
    save_averages := save_averages
    output_file := prod.name.getD dflt }

/-- `Ami3Pipeline.process`: select `products[0]` (error on an empty product
list), soft-abort when no SCIENCE members exist, reset the accumulators and
run the analysis loop, average the PSF accumulator then the science
accumulator (each persisted only under `save_averages`), and normalize iff
a PSF average was produced.  `save_averages` is the pipeline's flag,
`dflt` the pre-existing `self.output_file`. -/
def process (save_averages : Bool) (dflt : String) (asn : Association) :
    RunOutput :=
  match asn.products with
  | [] => ⟨[], .error .noProducts⟩
  | prod :: _ =>
    let ctx := mkCtx save_averages dflt asn prod
    if (sciExpnames prod).length == 0 then ⟨[], .aborted⟩
    else
      let lp := runLoop ctx prod.members
      let pp := avgPhase ctx "psf-amiavg" lp.2.1
      let tp := avgPhase ctx "amiavg" lp.2.2
      match pp.2 with
      | none => ⟨lp.1 ++ pp.1 ++ tp.1, .completed none tp.2 none⟩
      | some pavg =>
        match tp.2 with
        | none => ⟨lp.1 ++ pp.1 ++ tp.1, .error .nameErrorTargAvg⟩
        | some tavg =>
          let np := normPhase ctx tavg pavg
          ⟨lp.1 ++ pp.1 ++ tp.1 ++ np.1,
           .completed pp.2 tp.2 (some np.2)⟩

/-- The exposure names passed to `ami_analyze`, in trace order. -/
def analyzeCalls : List Event → List String
  | [] => []
  | .analyze e :: rest => e :: analyzeCalls rest
  | _ :: rest => analyzeCalls rest

/-- The artifact-file lists passed to `ami_average`, in trace order. -/
def averageCalls : List Event → List (List String)
  | [] => []
  | .average fs :: rest => fs :: averageCalls rest
  | _ :: rest => averageCalls rest

/-- The `(science, reference)` argument pairs passed to `ami_normalize`, in
trace order. -/
def normalizeCalls : List Event → List (Payload × Payload)
  | [] => []
  | .normalize s r :: rest => (s, r) :: normalizeCalls rest
  | _ :: rest => normalizeCalls rest

/-- The `(target, inputs)` pairs passed to `blendmeta.blendmodels`, in trace
order. -/
def blendCalls : List Event → List (Payload × List BlendItem)
  | [] => []
  | .blend t i :: rest => (t, i) :: blendCalls rest
  | _ :: rest => blendCalls rest

/-- The `(result, filename)` pairs passed to `save_model`, in trace order. -/
def saveCalls : List Event → List (Result × String)
  | [] => []
  | .save r f :: rest => (r, f) :: saveCalls rest
  | _ :: rest => saveCalls rest

/-- The science-accumulator contents after the loop: the saved artifact names
of the SCIENCE-role members, in member order. -/
def targArtifacts (prod : Product) : List String :=
  (prod.members.filter isScience).map memberOutName

/-- The PSF-accumulator contents after the loop: the saved artifact names of
the PSF-role members, in member order. -/
def psfArtifacts (prod : Product) : List String :=
  (prod.members.filter isPSF).map memberOutName

/-- The in-memory average result produced by `avgPhase` on a non-empty
accumulator: stamped and blended exactly when `save_averages` is set. -/
def avgResult (ctx : Ctx) (files : List String) : Result :=
  if ctx.save_averages then
    { payload := .average files
      pool_name := some ctx.asn_pool
      table_name := some ctx.asn_filename
      blendedWith := some (files.map BlendItem.file) }
  else
    { payload := .average files, pool_name := none, table_name := none,
      blendedWith := none }

theorem analyzeCalls_append (a b : List Event) :
    analyzeCalls (a ++ b) = analyzeCalls a ++ analyzeCalls b := by
  induction a with
  | nil => rfl
  | cons e rest ih => cases e <;> simp [analyzeCalls, ih]

theorem averageCalls_append (a b : List Event) :
    averageCalls (a ++ b) = averageCalls a ++ averageCalls b := by
  induction a with
  | nil => rfl
  | cons e rest ih => cases e <;> simp [averageCalls, ih]

theorem normalizeCalls_append (a b : List Event) :
    normalizeCalls (a ++ b) = normalizeCalls a ++ normalizeCalls b := by
  induction a with
  | nil => rfl
  | cons e rest ih => cases e <;> simp [normalizeCalls, ih]

theorem blendCalls_append (a b : List Event) :
    blendCalls (a ++ b) = blendCalls a ++ blendCalls b := by
  induction a with
  | nil => rfl
  | cons e rest ih => cases e <;> simp [blendCalls, ih]

theorem runLoop_trace_analyze (ctx : Ctx) (ms : List Member) :
    analyzeCalls (runLoop ctx ms).1 = ms.map (·.expname) := by
  induction ms with
  | nil => rfl
  | cons m rest ih => simp [runLoop, analyzeCalls, ih]

theorem runLoop_trace_no_average (ctx : Ctx) (ms : List Member) :
    averageCalls (runLoop ctx ms).1 = [] := by
  induction ms with
  | nil => rfl
  | cons m rest ih => simp [runLoop, averageCalls, ih]

theorem runLoop_trace_no_normalize (ctx : Ctx) (ms : List Member) :
    normalizeCalls (runLoop ctx ms).1 = [] := by
  induction ms with
  | nil => rfl
  | cons m rest ih => simp [runLoop, normalizeCalls, ih]

theorem runLoop_trace_no_blend (ctx : Ctx) (ms : List Member) :
    blendCalls (runLoop ctx ms).1 = [] := by
  induction ms with
  | nil => rfl
  | cons m rest ih => simp [runLoop, blendCalls, ih]

theorem runLoop_psf (ctx : Ctx) (ms : List Member) :
    (runLoop ctx ms).2.1 = (ms.filter isPSF).map memberOutName := by
  induction ms with
  | nil => rfl
  | cons m rest ih =>
    by_cases h : isPSF m <;> simp [runLoop, List.filter, h, ih]

theorem runLoop_targ (ctx : Ctx) (ms : List Member) :
    (runLoop ctx ms).2.2 = (ms.filter isScience).map memberOutName := by
  induction ms with
  | nil => rfl
  | cons m rest ih =>
    by_cases h : isScience m <;> simp [runLoop, List.filter, h, ih]

theorem avgPhase_nil (ctx : Ctx) (sfx : String) :
    avgPhase ctx sfx [] = ([], none) := by
  simp [avgPhase]

theorem avgPhase_ne_nil (ctx : Ctx) (sfx : String) (files : List String)
    (h : files ≠ []) :
    (avgPhase ctx sfx files).2 = some (avgResult ctx files) := by
  have hl : 0 < files.length := List.length_pos.mpr h
  by_cases hs : ctx.save_averages <;>
    simp [avgPhase, avgResult, hl, hs]

theorem avgPhase_trace_average (ctx : Ctx) (sfx : String)
    (files : List String) (h : files ≠ []) :
    averageCalls (avgPhase ctx sfx files).1 = [files] := by
  have hl : 0 < files.length := List.length_pos.mpr h
  by_cases hs : ctx.save_averages <;>
    simp [avgPhase, averageCalls, hl, hs]

theorem avgPhase_trace_no_analyze (ctx : Ctx) (sfx : String)
    (files : List String) :
    analyzeCalls (avgPhase ctx sfx files).1 = [] := by
  by_cases hl : 0 < files.length <;> by_cases hs : ctx.save_averages <;>
    simp [avgPhase, analyzeCalls, hl, hs]

theorem avgPhase_trace_no_normalize (ctx : Ctx) (sfx : String)
    (files : List String) :
    normalizeCalls (avgPhase ctx sfx files).1 = [] := by
  by_cases hl : 0 < files.length <;> by_cases hs : ctx.save_averages <;>
    simp [avgPhase, normalizeCalls, hl, hs]

theorem sciExpnames_len_beq_false (prod : Product)
    (hs : prod.members.filter isScience ≠ []) :
    ((sciExpnames prod).length == 0) = false := by
  rw [beq_eq_false_iff_ne]
  simpa [sciExpnames, List.length_eq_zero] using hs

/-- Closed form of a run with ≥1 science member and no PSF members: the loop
trace followed by the science-average block, completing with no reference
average and no normalized result. -/
theorem process_run_noPsf (sa : Bool) (d : String) (asn : Association)
    (prod : Product) (rest : List Product)
    (hp : asn.products = prod :: rest)
    (hs : prod.members.filter isScience ≠ [])
    (hpsf : prod.members.filter isPSF = []) :
    process sa d asn =
      ⟨(runLoop (mkCtx sa d asn prod) prod.members).1
         ++ (avgPhase (mkCtx sa d asn prod) "amiavg" (targArtifacts prod)).1,
       .completed none
         (some (avgResult (mkCtx sa d asn prod) (targArtifacts prod))) none⟩ := by
  have hc := sciExpnames_len_beq_false prod hs
  have htargA : targArtifacts prod ≠ [] := by
    simp [targArtifacts, hs]
  have h1 : (runLoop (mkCtx sa d asn prod) prod.members).2.1 = psfArtifacts prod :=
    runLoop_psf _ _
  have h2 : (runLoop (mkCtx sa d asn prod) prod.members).2.2 = targArtifacts prod :=
    runLoop_targ _ _
  have hpsfA : psfArtifacts prod = [] := by
    simp [psfArtifacts, hpsf]
  simp only [process, hp, hc, Bool.false_eq_true, if_false, h1, h2, hpsfA,
    avgPhase_nil, avgPhase_ne_nil _ _ _ htargA, List.nil_append,
    List.append_nil]

/-- Closed form of a run with ≥1 member of each role: the loop trace, the
PSF-average block, the science-average block and the normalization block,
completing with both averages and the normalized result. -/
theorem process_run_both (sa : Bool) (d : String) (asn : Association)
    (prod : Product) (rest : List Product)
    (hp : asn.products = prod :: rest)
    (hs : prod.members.filter isScience ≠ [])
    (hpsf : prod.members.filter isPSF ≠ []) :
    process sa d asn =
      ⟨(runLoop (mkCtx sa d asn prod) prod.members).1
         ++ (avgPhase (mkCtx sa d asn prod) "psf-amiavg" (psfArtifacts prod)).1
         ++ (avgPhase (mkCtx sa d asn prod) "amiavg" (targArtifacts prod)).1
         ++ (normPhase (mkCtx sa d asn prod)
               (avgResult (mkCtx sa d asn prod) (targArtifacts prod))
               (avgResult (mkCtx sa d asn prod) (psfArtifacts prod))).1,
       .completed
         (some (avgResult (mkCtx sa d asn prod) (psfArtifacts prod)))
         (some (avgResult (mkCtx sa d asn prod) (targArtifacts prod)))
         (some ((normPhase (mkCtx sa d asn prod)
                  (avgResult (mkCtx sa d asn prod) (targArtifacts prod))
                  (avgResult (mkCtx sa d asn prod) (psfArtifacts prod))).2))⟩ := by
  have hc := sciExpnames_len_beq_false prod hs
  have htargA : targArtifacts prod ≠ [] := by
    simp [targArtifacts, hs]
  have hpsfA : psfArtifacts prod ≠ [] := by
    simp [psfArtifacts, hpsf]
  have h1 : (runLoop (mkCtx sa d asn prod) prod.members).2.1 = psfArtifacts prod :=
    runLoop_psf _ _
  have h2 : (runLoop (mkCtx sa d asn prod) prod.members).2.2 = targArtifacts prod :=
    runLoop_targ _ _
  simp only [process, hp, hc, Bool.false_eq_true, if_false, h1, h2,
    avgPhase_ne_nil _ _ _ hpsfA, avgPhase_ne_nil _ _ _ htargA]

/-- C1: for every association whose first product contains zero members with
role SCIENCE (case-insensitive), `process` terminates as a soft abort: it
returns the `aborted` outcome with an empty invocation trace, so no
analysis, aggregation, normalization, blending or persistence stage is
ever invoked and no error is raised. -/
theorem claim1_abort_without_stages (sa : Bool) (d : String)
    (asn : Association) (prod : Product) (rest : List Product)
    (hp : asn.products = prod :: rest)
    (hs : prod.members.filter isScience = []) :
    process sa d asn = ⟨[], .aborted⟩ := by
  have hemp : sciExpnames prod = [] := by simp [sciExpnames, hs]
  simp [process, hp, hemp]

def asnC1 : Association :=
  { asn_id := "a1", asn_pool := "poolA", filename := "tableA",
    products := [{ name := none, members := [Member.mk "m1" "psf"] }] }

theorem claim1_witness :
    asnC1.products = { name := none, members := [Member.mk "m1" "psf"] } :: [] ∧
    (Product.mk none [Member.mk "m1" "psf"]).members.filter isScience = [] ∧
    process false "d" asnC1 = ⟨[], .aborted⟩ :=
  ⟨rfl, by decide,
   claim1_abort_without_stages false "d" asnC1 _ _ rfl (by decide)⟩

/-- C7: for every association with zero products, `process` fails with the
run-level error modelling the exception raised by `asn['products'][0]`,
and the invocation trace is empty: the run aborts before any stage is
invoked. -/
theorem claim7_no_products_error (sa : Bool) (d : String) (asn : Association)
    (hp : asn.products = []) :
    process sa d asn = ⟨[], .error .noProducts⟩ := by
  simp [process, hp]

def asnC7 : Association :=
  { asn_id := "a7", asn_pool := "poolG", filename := "tableG", products := [] }

theorem claim7_witness :
    asnC7.products = [] ∧
    process true "d" asnC7 = ⟨[], .error .noProducts⟩ :=
  ⟨rfl, claim7_no_products_error true "d" asnC7 rfl⟩

/-- C10: no run of `process`, for any flag value and any association, ever
fails with the unbound-`targ_avg` error: whenever the normalization branch
is reached (a PSF average exists), the pre-loop validation guarantees at
least one SCIENCE member, hence a non-empty science accumulator, hence a
science average. -/
theorem claim10_science_average_always_defined (sa : Bool) (d : String)
    (asn : Association) :
    (process sa d asn).outcome ≠ .error .nameErrorTargAvg := by
  match hps : asn.products with
  | [] => simp [process, hps]
  | prod :: rest =>
    by_cases hsci : prod.members.filter isScience = []
    · have hemp : sciExpnames prod = [] := by simp [sciExpnames, hsci]
      simp [process, hps, hemp]
    · have hc := sciExpnames_len_beq_false prod hsci
      have htargA : targArtifacts prod ≠ [] := by
        simp [targArtifacts, hsci]
      have h2 : (runLoop (mkCtx sa d asn prod) prod.members).2.2 =
          targArtifacts prod := runLoop_targ _ _
      cases hpp : (avgPhase (mkCtx sa d asn prod) "psf-amiavg"
          (runLoop (mkCtx sa d asn prod) prod.members).2.1).2 with
      | none =>
        simp [process, hps, hc, hpp]
      | some pavg =>
        simp [process, hps, hc, hpp, h2, avgPhase_ne_nil _ _ _ htargA]

theorem avgResult_payload (ctx : Ctx) (files : List String) :
    (avgResult ctx files).payload = .average files := by
  by_cases h : ctx.save_averages <;> simp [avgResult, h]

theorem average_beq_normalized (x : List String) (a b : Payload) :
    (Payload.average x == Payload.normalized a b) = false := by
  rw [beq_eq_false_iff_ne]
  intro h
  cases h

theorem normPhase_trace_normalize (ctx : Ctx) (t p : Result) :
    normalizeCalls (normPhase ctx t p).1 = [(t.payload, p.payload)] := by
  simp [normPhase, normalizeCalls]

theorem normPhase_trace_no_analyze (ctx : Ctx) (t p : Result) :
    analyzeCalls (normPhase ctx t p).1 = [] := by
  simp [normPhase, analyzeCalls]

theorem normPhase_trace_no_average (ctx : Ctx) (t p : Result) :
    averageCalls (normPhase ctx t p).1 = [] := by
  simp [normPhase, averageCalls]

theorem normPhase_trace_blend (ctx : Ctx) (t p : Result) :
    blendCalls (normPhase ctx t p).1 =
      [(Payload.normalized t.payload p.payload,
        [BlendItem.model t.payload, BlendItem.model p.payload])] := by
  simp [normPhase, blendCalls]

theorem avgPhase_trace_blend (ctx : Ctx) (sfx : String) (files : List String) :
    blendCalls (avgPhase ctx sfx files).1 =
      if ctx.save_averages = true ∧ files ≠ [] then
        [(Payload.average files, files.map BlendItem.file)]
      else [] := by
  by_cases hl : files = []
  · simp [hl, avgPhase_nil, blendCalls]
  · have hl' : 0 < files.length := List.length_pos.mpr hl
    by_cases hs : ctx.save_averages <;>
      simp [avgPhase, blendCalls, hl, hl', hs]

/-- C2: for every association whose first product has at least one SCIENCE
member and at least one PSF (reference) member, the run's trace splits
into three consecutive segments: all analysis calls (one per member, in
member order) come first, then exactly two aggregation calls (reference
accumulator, then science accumulator), then exactly one normalization
call; so every analysis precedes every aggregation, which precedes the
normalization. -/
theorem claim2_stage_counts_and_order (sa : Bool) (d : String)
    (asn : Association) (prod : Product) (rest : List Product)
    (hp : asn.products = prod :: rest)
    (hs : prod.members.filter isScience ≠ [])
    (hpsf : prod.members.filter isPSF ≠ []) :
    ∃ t1 t2 t3, (process sa d asn).trace = t1 ++ t2 ++ t3 ∧
      analyzeCalls t1 = prod.members.map (·.expname) ∧
      averageCalls t1 = [] ∧ normalizeCalls t1 = [] ∧
      analyzeCalls t2 = [] ∧
      averageCalls t2 = [psfArtifacts prod, targArtifacts prod] ∧
      normalizeCalls t2 = [] ∧
      analyzeCalls t3 = [] ∧ averageCalls t3 = [] ∧
      normalizeCalls t3 =
        [(Payload.average (targArtifacts prod),
          Payload.average (psfArtifacts prod))] := by
  have htargA : targArtifacts prod ≠ [] := by simp [targArtifacts, hs]
  have hpsfA : psfArtifacts prod ≠ [] := by simp [psfArtifacts, hpsf]
  rw [process_run_both sa d asn prod rest hp hs hpsf]
  refine ⟨(runLoop (mkCtx sa d asn prod) prod.members).1,
    (avgPhase (mkCtx sa d asn prod) "psf-amiavg" (psfArtifacts prod)).1
      ++ (avgPhase (mkCtx sa d asn prod) "amiavg" (targArtifacts prod)).1,
    (normPhase (mkCtx sa d asn prod)
      (avgResult (mkCtx sa d asn prod) (targArtifacts prod))
      (avgResult (mkCtx sa d asn prod) (psfArtifacts prod))).1,
    by simp, ?_, ?_, ?_, ?_, ?_, ?_, ?_, ?_, ?_⟩
  · exact runLoop_trace_analyze _ _
  · exact runLoop_trace_no_average _ _
  · exact runLoop_trace_no_normalize _ _
  · simp [analyzeCalls_append, avgPhase_trace_no_analyze]
  · simp [averageCalls_append, avgPhase_trace_average _ _ _ hpsfA,
      avgPhase_trace_average _ _ _ htargA]
  · simp [normalizeCalls_append, avgPhase_trace_no_normalize]
  · exact normPhase_trace_no_analyze _ _ _
  · exact normPhase_trace_no_average _ _ _
  · simp [normPhase_trace_normalize, avgResult_payload]

def prodC2 : Product :=
  { name := some "o2", members := [Member.mk "s2" "science", Member.mk "p2" "Psf"] }

def asnC2 : Association :=
  { asn_id := "a2", asn_pool := "pool2", filename := "table2",
    products := [prodC2] }

theorem claim2_witness :
    (asnC2.products = prodC2 :: [] ∧
     prodC2.members.filter isScience ≠ [] ∧
     prodC2.members.filter isPSF ≠ []) ∧
    (∃ t1 t2 t3, (process true "d" asnC2).trace = t1 ++ t2 ++ t3 ∧
      analyzeCalls t1 = prodC2.members.map (·.expname) ∧
      averageCalls t1 = [] ∧ normalizeCalls t1 = [] ∧
      analyzeCalls t2 = [] ∧
      averageCalls t2 = [psfArtifacts prodC2, targArtifacts prodC2] ∧
      normalizeCalls t2 = [] ∧
      analyzeCalls t3 = [] ∧ averageCalls t3 = [] ∧
      normalizeCalls t3 =
        [(Payload.average (targArtifacts prodC2),
          Payload.average (psfArtifacts prodC2))]) :=
  ⟨⟨rfl, by decide, by decide⟩,
   claim2_stage_counts_and_order true "d" asnC2 prodC2 [] rfl
     (by decide) (by decide)⟩

/-- C3: in every non-aborted run, the normalization stage is invoked iff the
first product has at least one PSF (reference) member — equivalently, iff
the reference accumulator was non-empty and a reference average was
produced — for either value of the persist-averages flag; and when it is
invoked, it is invoked exactly once on (science average, reference
average), and the single metadata-blend applied to the normalized result
uses exactly the ordered two-element input list
[science average, reference average]. -/
theorem claim3_normalize_iff_reference (sa : Bool) (d : String)
    (asn : Association) (prod : Product) (rest : List Product)
    (hp : asn.products = prod :: rest)
    (hs : prod.members.filter isScience ≠ []) :
    (normalizeCalls (process sa d asn).trace ≠ [] ↔
      prod.members.filter isPSF ≠ []) ∧
    (prod.members.filter isPSF ≠ [] →
      normalizeCalls (process sa d asn).trace =
        [(Payload.average (targArtifacts prod),
          Payload.average (psfArtifacts prod))] ∧
      (blendCalls (process sa d asn).trace).filter
          (fun x => x.1 ==
            Payload.normalized (Payload.average (targArtifacts prod))
              (Payload.average (psfArtifacts prod))) =
        [(Payload.normalized (Payload.average (targArtifacts prod))
            (Payload.average (psfArtifacts prod)),
          [BlendItem.model (Payload.average (targArtifacts prod)),
           BlendItem.model (Payload.average (psfArtifacts prod))])]) := by
  have key : prod.members.filter isPSF ≠ [] →
      normalizeCalls (process sa d asn).trace =
        [(Payload.average (targArtifacts prod),
          Payload.average (psfArtifacts prod))] ∧
      (blendCalls (process sa d asn).trace).filter
          (fun x => x.1 ==
            Payload.normalized (Payload.average (targArtifacts prod))
              (Payload.average (psfArtifacts prod))) =
        [(Payload.normalized (Payload.average (targArtifacts prod))
            (Payload.average (psfArtifacts prod)),
          [BlendItem.model (Payload.average (targArtifacts prod)),
           BlendItem.model (Payload.average (psfArtifacts prod))])] := by
    intro hpsf
    rw [process_run_both sa d asn prod rest hp hs hpsf]
    constructor
    · simp [normalizeCalls_append, runLoop_trace_no_normalize,
        avgPhase_trace_no_normalize, normPhase_trace_normalize,
        avgResult_payload]
    · by_cases hsa : sa <;>
        simp [blendCalls_append, runLoop_trace_no_blend,
          avgPhase_trace_blend, normPhase_trace_blend, avgResult_payload,
          mkCtx, hsa, List.filter, average_beq_normalized,
          targArtifacts, psfArtifacts, hs, hpsf]
  refine ⟨⟨?_, fun hpsf => by simp [(key hpsf).1]⟩, key⟩
  intro hne
  by_contra hpsf
  rw [process_run_noPsf sa d asn prod rest hp hs hpsf] at hne
  simp [normalizeCalls_append, runLoop_trace_no_normalize,
    avgPhase_trace_no_normalize] at hne

def prodC3 : Product :=
  { name := some "o3", members := [Member.mk "s3" "Science", Member.mk "p3" "PSF"] }

def asnC3 : Association :=
  { asn_id := "a3", asn_pool := "pool3", filename := "table3",
    products := [prodC3] }

theorem claim3_witness :
    (asnC3.products = prodC3 :: [] ∧
     prodC3.members.filter isScience ≠ [] ∧
     prodC3.members.filter isPSF ≠ []) ∧
    (normalizeCalls (process false "d" asnC3).trace ≠ [] ↔
      prodC3.members.filter isPSF ≠ []) ∧
    normalizeCalls (process false "d" asnC3).trace =
      [(Payload.average (targArtifacts prodC3),
        Payload.average (psfArtifacts prodC3))] ∧
    (blendCalls (process false "d" asnC3).trace).filter
        (fun x => x.1 ==
          Payload.normalized (Payload.average (targArtifacts prodC3))
            (Payload.average (psfArtifacts prodC3))) =
      [(Payload.normalized (Payload.average (targArtifacts prodC3))
          (Payload.average (psfArtifacts prodC3)),
        [BlendItem.model (Payload.average (targArtifacts prodC3)),
         BlendItem.model (Payload.average (psfArtifacts prodC3))])] :=
  ⟨⟨rfl, by decide, by decide⟩,
   (claim3_normalize_iff_reference false "d" asnC3 prodC3 [] rfl (by decide)).1,
   ((claim3_normalize_iff_reference false "d" asnC3 prodC3 [] rfl
       (by decide)).2 (by decide)).1,
   ((claim3_normalize_iff_reference false "d" asnC3 prodC3 [] rfl
       (by decide)).2 (by decide)).2⟩

/-- C6: for every association whose first product has at least one SCIENCE
member and zero PSF (reference) members, the run completes normally (no
abort, no error), the normalization stage is never invoked, no reference
average exists, and the science average is still produced by the
aggregation stage on the science accumulator. -/
theorem claim6_degraded_no_reference (sa : Bool) (d : String)
    (asn : Association) (prod : Product) (rest : List Product)
    (hp : asn.products = prod :: rest)
    (hs : prod.members.filter isScience ≠ [])
    (hpsf : prod.members.filter isPSF = []) :
    (process sa d asn).outcome =
      .completed none
        (some (avgResult (mkCtx sa d asn prod) (targArtifacts prod))) none ∧
    normalizeCalls (process sa d asn).trace = [] ∧
    averageCalls (process sa d asn).trace = [targArtifacts prod] := by
  have htargA : targArtifacts prod ≠ [] := by simp [targArtifacts, hs]
  rw [process_run_noPsf sa d asn prod rest hp hs hpsf]
  refine ⟨rfl, ?_, ?_⟩
  · simp [normalizeCalls_append, runLoop_trace_no_normalize,
      avgPhase_trace_no_normalize]
  · simp [averageCalls_append, runLoop_trace_no_average,
      avgPhase_trace_average _ _ _ htargA]

def prodC6 : Product :=
  { name := some "o6", members := [Member.mk "s6" "SCIENCE", Member.mk "x6" "target_acq"] }

def asnC6 : Association :=
  { asn_id := "a6", asn_pool := "pool6", filename := "table6",
    products := [prodC6] }

theorem claim6_witness :
    (asnC6.products = prodC6 :: [] ∧
     prodC6.members.filter isScience ≠ [] ∧
     prodC6.members.filter isPSF = []) ∧
    ((process false "d" asnC6).outcome =
       .completed none
         (some (avgResult (mkCtx false "d" asnC6 prodC6)
                  (targArtifacts prodC6))) none ∧
     normalizeCalls (process false "d" asnC6).trace = [] ∧
     averageCalls (process false "d" asnC6).trace = [targArtifacts prodC6]) :=
  ⟨⟨rfl, by decide, by decide⟩,
   claim6_degraded_no_reference false "d" asnC6 prodC6 [] rfl
     (by decide) (by decide)⟩

/-- C4: for every member of the processed product's member list, accumulator
assignment is decided by case-insensitive comparison of its role tag: every
member is analyzed exactly once in order; the PSF accumulator holds exactly
the saved artifacts of the members whose uppercased role equals `PSF` (the
source's spelling of the reference role); the science accumulator holds
exactly those whose uppercased role equals `SCIENCE`; any member matching
neither is analyzed but lands in neither accumulator. -/
theorem claim4_role_partition (ctx : Ctx) (ms : List Member) :
    analyzeCalls (runLoop ctx ms).1 = ms.map (·.expname) ∧
    (runLoop ctx ms).2.1 =
      (ms.filter (fun m => upper m.exptype == "PSF")).map memberOutName ∧
    (runLoop ctx ms).2.2 =
      (ms.filter (fun m => upper m.exptype == "SCIENCE")).map memberOutName :=
  ⟨runLoop_trace_analyze ctx ms, runLoop_psf ctx ms, runLoop_targ ctx ms⟩

def prodC5 : Product :=
  { name := some "o5", members := [Member.mk "s5" "science", Member.mk "p5" "psf"] }

def asnC5 : Association :=
  { asn_id := "a5", asn_pool := "pool5", filename := "table5",
    products := [prodC5] }

/-- C5 counterexample: with the persist-averages flag false, on an
association with one science and one PSF member, both aggregate results
complete the run with `pool_name = none`, `table_name = none` and no
metadata blend — they are not stamped with the association's provenance,
contradicting the claim's "for every configuration of the persist-averages
flag".  Only the normalized result is stamped and blended. -/
theorem claim5_counterexample :
    (process false "d" asnC5).outcome =
      .completed
        (some { payload := .average ["p5_ami.fits"], pool_name := none,
                table_name := none, blendedWith := none })
        (some { payload := .average ["s5_ami.fits"], pool_name := none,
                table_name := none, blendedWith := none })
        (some { payload := .normalized (.average ["s5_ami.fits"])
                  (.average ["p5_ami.fits"]),
                pool_name := some "pool5", table_name := some "table5",
                blendedWith := some
                  [BlendItem.model (.average ["s5_ami.fits"]),
                   BlendItem.model (.average ["p5_ami.fits"])] }) ∧
    (none : Option String) ≠ some asnC5.asn_pool := by
  exact ⟨rfl, by decide⟩

/-- C5 (amended): aggregate results are stamped with the association's
pool/table provenance and blended against their role accumulator (in
accumulation order) exactly when the persist-averages flag is set; when
the flag is unset they carry no stamped provenance and no blend.  The
normalized result is, for either flag value, stamped with the
association's pool/table provenance and blended against exactly the
ordered two-element list [science aggregate, reference aggregate]. -/
theorem claim5_amended_provenance (sa : Bool) (d : String) (asn : Association)
    (prod : Product) (rest : List Product)
    (hp : asn.products = prod :: rest)
    (hs : prod.members.filter isScience ≠ [])
    (po ta nz : Option Result)
    (hout : (process sa d asn).outcome = .completed po ta nz) :
    (sa = true → ∀ r, po = some r →
      r.pool_name = some asn.asn_pool ∧ r.table_name = some asn.filename ∧
      r.blendedWith = some ((psfArtifacts prod).map BlendItem.file)) ∧
    (sa = true → ∀ r, ta = some r →
      r.pool_name = some asn.asn_pool ∧ r.table_name = some asn.filename ∧
      r.blendedWith = some ((targArtifacts prod).map BlendItem.file)) ∧
    (sa = false → ∀ r, po = some r →
      r.pool_name = none ∧ r.table_name = none ∧ r.blendedWith = none) ∧
    (sa = false → ∀ r, ta = some r →
      r.pool_name = none ∧ r.table_name = none ∧ r.blendedWith = none) ∧
    (∀ r, nz = some r →
      r.pool_name = some asn.asn_pool ∧ r.table_name = some asn.filename ∧
      r.blendedWith = some
        [BlendItem.model (Payload.average (targArtifacts prod)),
         BlendItem.model (Payload.average (psfArtifacts prod))]) := by
  by_cases hpsf : prod.members.filter isPSF = []
  · rw [process_run_noPsf sa d asn prod rest hp hs hpsf] at hout
    injection hout with h1 h2 h3
    subst h1
    subst h2
    subst h3
    refine ⟨by simp, ?_, by simp, ?_, by simp⟩
    · rintro hsa r hr
      injection hr with hr
      subst hr
      simp [avgResult, mkCtx, hsa]
    · rintro hsa r hr
      injection hr with hr
      subst hr
      simp [avgResult, mkCtx, hsa]
  · rw [process_run_both sa d asn prod rest hp hs hpsf] at hout
    injection hout with h1 h2 h3
    subst h1
    subst h2
    subst h3
    refine ⟨?_, ?_, ?_, ?_, ?_⟩
    · rintro hsa r hr
      injection hr with hr
      subst hr
      simp [avgResult, mkCtx, hsa]
    · rintro hsa r hr
      injection hr with hr
      subst hr
      simp [avgResult, mkCtx, hsa]
    · rintro hsa r hr
      injection hr with hr
      subst hr
      simp [avgResult, mkCtx, hsa]
    · rintro hsa r hr
      injection hr with hr
      subst hr
      simp [avgResult, mkCtx, hsa]
    · rintro r hr
      injection hr with hr
      subst hr
      simp [normPhase, mkCtx, avgResult_payload]

def poC5 : Option Result :=
  some { payload := .average ["p5_ami.fits"], pool_name := some "pool5",
         table_name := some "table5",
         blendedWith := some [BlendItem.file "p5_ami.fits"] }

def taC5 : Option Result :=
  some { payload := .average ["s5_ami.fits"], pool_name := some "pool5",
         table_name := some "table5",
         blendedWith := some [BlendItem.file "s5_ami.fits"] }

def nzResC5 : Result :=
  { payload := .normalized (.average ["s5_ami.fits"])
      (.average ["p5_ami.fits"]),
    pool_name := some "pool5", table_name := some "table5",
    blendedWith := some
      [BlendItem.model (.average ["s5_ami.fits"]),
       BlendItem.model (.average ["p5_ami.fits"])] }

theorem claim5_witness :
    (asnC5.products = prodC5 :: [] ∧
     prodC5.members.filter isScience ≠ [] ∧
     (process true "d" asnC5).outcome =
       .completed poC5 taC5 (some nzResC5)) ∧
    nzResC5.pool_name = some asnC5.asn_pool ∧
    nzResC5.table_name = some asnC5.filename ∧
    nzResC5.blendedWith = some
      [BlendItem.model (Payload.average (targArtifacts prodC5)),
       BlendItem.model (Payload.average (psfArtifacts prodC5))] :=
  ⟨⟨rfl, by decide, rfl⟩,
   (claim5_amended_provenance true "d" asnC5 prodC5 [] rfl (by decide)
      poC5 taC5 (some nzResC5) rfl).2.2.2.2 nzResC5 rfl⟩

def prodC8 : Product :=
  { name := some "o8", members := [Member.mk "s8" "science", Member.mk "p8" "psf"] }

def asnC8 : Association :=
  { asn_id := "a8", asn_pool := "pool8", filename := "table8",
    products := [prodC8] }

/-- C8 counterexample: on an association with one science and one PSF member,
the run makes exactly two aggregation calls and the first one is on the
reference (PSF) accumulator, not the science accumulator — the code
averages the reference results before the science results, so the claim's
science-before-reference order (the spec's state-diagram order) is false. -/
theorem claim8_counterexample :
    averageCalls (process false "d" asnC8).trace =
      [psfArtifacts prodC8, targArtifacts prodC8] ∧
    psfArtifacts prodC8 = ["p8_ami.fits"] ∧
    targArtifacts prodC8 = ["s8_ami.fits"] ∧
    (averageCalls (process false "d" asnC8).trace).head? ≠
      some (targArtifacts prodC8) := by
  exact ⟨rfl, rfl, rfl, by decide⟩

/-- C8 (amended): in every non-aborted run in which both aggregates are
produced, the reference (PSF) aggregation is invoked before the science
aggregation — the aggregation calls are exactly [reference accumulator,
science accumulator] in that order, matching the spec's numbered steps 4–5
and contradicting only its state-diagram line. -/
theorem claim8_amended_reference_first (sa : Bool) (d : String)
    (asn : Association) (prod : Product) (rest : List Product)
    (hp : asn.products = prod :: rest)
    (hs : prod.members.filter isScience ≠ [])
    (hpsf : prod.members.filter isPSF ≠ []) :
    averageCalls (process sa d asn).trace =
      [psfArtifacts prod, targArtifacts prod] := by
  have htargA : targArtifacts prod ≠ [] := by simp [targArtifacts, hs]
  have hpsfA : psfArtifacts prod ≠ [] := by simp [psfArtifacts, hpsf]
  rw [process_run_both sa d asn prod rest hp hs hpsf]
  simp [averageCalls_append, runLoop_trace_no_average,
    avgPhase_trace_average _ _ _ hpsfA, avgPhase_trace_average _ _ _ htargA,
    normPhase_trace_no_average]

theorem claim8_witness :
    (asnC8.products = prodC8 :: [] ∧
     prodC8.members.filter isScience ≠ [] ∧
     prodC8.members.filter isPSF ≠ []) ∧
    averageCalls (process true "d" asnC8).trace =
      [psfArtifacts prodC8, targArtifacts prodC8] :=
  ⟨⟨rfl, by decide, by decide⟩,
   claim8_amended_reference_first true "d" asnC8 prodC8 [] rfl
     (by decide) (by decide)⟩

/-- Two consecutive runs of the pipeline on the same unchanged association
with the persist-averages flag false. -/
def runTwice (d : String) (asn : Association) : RunOutput × RunOutput :=
  (process false d asn, process false d asn)

/-- C9: re-running the pipeline on the same unchanged association with the
persist-averages flag false is deterministic: the two runs have identical
full outputs — the same stage-invocation trace (same inputs, same order),
the same metadata-blend calls in the same order, and the same terminal
outcome including the normalized result. -/
theorem claim9_rerun_deterministic (d : String) (asn : Association) :
    (runTwice d asn).1 = (runTwice d asn).2 ∧
    (runTwice d asn).1.trace = (runTwice d asn).2.trace ∧
    blendCalls (runTwice d asn).1.trace =
      blendCalls (runTwice d asn).2.trace ∧
    (runTwice d asn).1.outcome = (runTwice d asn).2.outcome :=
  ⟨rfl, rfl, rfl, rfl⟩

end Ami3
